import Mathlib

/-!
Verification of the `short_default` procedural macro (src/src/lib.rs).

The macro is a compile-time token-to-token transformation.  We embed it
shallowly: token streams become `List Tok` where a delimited group is a
single token tree (as in `proc_macro2`), and every parsing function from
the source becomes a Lean function `List Tok → Except ParseErr (α × List Tok)`.
The external collaborators from the `syn`/`quote` crates (standard field
syntax, expression parsing, printing) are modelled from their documented
behaviour and the specification's description of them as black boxes that
the core only uses to locate field boundaries.
-/

namespace ShortDefault

/-- Delimiters of a token group, as in `proc_macro2::Delimiter`
(braces, parentheses, brackets). -/
inductive Delim where
  | paren
  | bracket
  | brace
deriving DecidableEq, Repr

/-- A token tree: identifier (including keywords), literal, punctuation
(composite operators such as `::` or `->` are one token, as after
`proc_macro2` joint-punct joining), or a delimited group containing a
nested token stream. -/
inductive Tok where
  | ident (s : String)
  | lit (s : String)
  | punct (s : String)
  | group (d : Delim) (ts : List Tok)

mutual

/-- Decidable equality on token trees (hand-rolled because of the nested
occurrence of `List Tok`). -/
def Tok.decEq : (a b : Tok) → Decidable (a = b)
  | .ident a, .ident b =>
    match String.decEq a b with
    | isTrue h => isTrue (by rw [h])
    | isFalse h => isFalse (fun hh => h (by cases hh; rfl))
  | .ident _, .lit _ => isFalse (fun h => Tok.noConfusion h)
  | .ident _, .punct _ => isFalse (fun h => Tok.noConfusion h)
  | .ident _, .group _ _ => isFalse (fun h => Tok.noConfusion h)
  | .lit _, .ident _ => isFalse (fun h => Tok.noConfusion h)
  | .lit a, .lit b =>
    match String.decEq a b with
    | isTrue h => isTrue (by rw [h])
    | isFalse h => isFalse (fun hh => h (by cases hh; rfl))
  | .lit _, .punct _ => isFalse (fun h => Tok.noConfusion h)
  | .lit _, .group _ _ => isFalse (fun h => Tok.noConfusion h)
  | .punct _, .ident _ => isFalse (fun h => Tok.noConfusion h)
  | .punct _, .lit _ => isFalse (fun h => Tok.noConfusion h)
  | .punct a, .punct b =>
    match String.decEq a b with
    | isTrue h => isTrue (by rw [h])
    | isFalse h => isFalse (fun hh => h (by cases hh; rfl))
  | .punct _, .group _ _ => isFalse (fun h => Tok.noConfusion h)
  | .group _ _, .ident _ => isFalse (fun h => Tok.noConfusion h)
  | .group _ _, .lit _ => isFalse (fun h => Tok.noConfusion h)
  | .group _ _, .punct _ => isFalse (fun h => Tok.noConfusion h)
  | .group d1 l1, .group d2 l2 =>
    match inferInstanceAs (Decidable (d1 = d2)), Tok.decEqList l1 l2 with
    | isTrue h1, isTrue h2 => isTrue (by rw [h1, h2])
    | isFalse h1, _ => isFalse (fun h => h1 (by cases h; rfl))
    | _, isFalse h2 => isFalse (fun h => h2 (by cases h; rfl))

/-- Decidable equality on token streams, mutually with `Tok.decEq`. -/
def Tok.decEqList : (a b : List Tok) → Decidable (a = b)
  | [], [] => isTrue rfl
  | [], _ :: _ => isFalse (fun h => List.noConfusion h)
  | _ :: _, [] => isFalse (fun h => List.noConfusion h)
  | a :: as, b :: bs =>
    match Tok.decEq a b, Tok.decEqList as bs with
    | isTrue h1, isTrue h2 => isTrue (by rw [h1, h2])
    | isFalse h1, _ => isFalse (fun h => h1 (by cases h; rfl))
    | _, isFalse h2 => isFalse (fun h => h2 (by cases h; rfl))

end

instance : DecidableEq Tok := Tok.decEq

instance : DecidableEq (List Tok) := Tok.decEqList

/-- A syntax error: the expectation message and the remaining token
stream at the point of failure (its head is the offending token; an empty
list means unexpected end of input).  Models `syn::Error`. -/
structure ParseErr where
  expected : String
  found : List Tok
deriving DecidableEq

/-- True when the token is the punctuation `s`. -/
def Tok.isPunct (t : Tok) (s : String) : Bool :=
  match t with
  | .punct p => p = s
  | _ => false

/-- Model of `input.peek(Token![,])` on a `syn::parse::ParseStream`:
true exactly when the next token is a comma; false on an exhausted
stream. -/
def peekComma : List Tok → Bool
  | .punct "," :: _ => true
  | _ => false

/-- Model of the external collaborator `syn::Attribute::parse_outer`:
consume a run of outer attributes, each being a `#` punct followed by a
bracketed group; an attribute is kept as its bracketed token stream. -/
def parseOuterAttrs : List Tok → List (List Tok) × List Tok
  | .punct "#" :: .group .bracket g :: rest =>
    let (as, r) := parseOuterAttrs rest
    (g :: as, r)
  | ts => ([], ts)

/-- A visibility modifier, as in `syn::Visibility`: inherited (nothing),
`pub`, or `pub(...)` with a restriction group. -/
inductive Vis where
  | inherited
  | pubAll
  | pubIn (g : List Tok)
deriving DecidableEq

/-- Model of the external collaborator `syn::Visibility::parse`: optional
`pub`, optionally followed by a parenthesized restriction whose first
token is one of the path keywords `crate`, `self`, `super`, `in`. -/
def parseVis : List Tok → Vis × List Tok
  | .ident "pub" :: .group .paren g :: rest =>
    (match g with
     | .ident m :: _ =>
       if m = "crate" ∨ m = "self" ∨ m = "super" ∨ m = "in" then (.pubIn g, rest)
       else (.pubAll, .group .paren g :: rest)
     | _ => (.pubAll, .group .paren g :: rest))
  | .ident "pub" :: rest => (.pubAll, rest)
  | ts => (.inherited, ts)

/-- Model of the external collaborator `syn::Type::parse` in field
position: consume tokens, tracking angle-bracket depth, up to the first
depth-zero `,` or `=` or the end of the stream (assoc-type bindings such
as `Item = u8` sit at positive depth and are kept). -/
def takeType (d : Nat) : List Tok → List Tok × List Tok
  | [] => ([], [])
  | t :: rest =>
    if d = 0 ∧ (t.isPunct "," ∨ t.isPunct "=") then ([], t :: rest)
    else
      let d2 := if t.isPunct "<" then d + 1 else if t.isPunct ">" then d - 1 else d
      let (ty, r) := takeType d2 rest
      (t :: ty, r)

/-- A standard field, as in `syn::Field`: outer attributes, visibility,
optional name (present for named fields, absent for tuple fields) and the
type's token stream. -/
structure Field where
  attrs : List (List Tok)
  vis : Vis
  ident : Option String
  ty : List Tok
deriving DecidableEq

/-- Model of the external collaborator `syn::Field::parse_named`:
attributes, visibility, the field name, a `:` punct, then the type. -/
def Field.parseNamed (ts : List Tok) : Except ParseErr (Field × List Tok) :=
  let (attrs, ts1) := parseOuterAttrs ts
  let (vis, ts2) := parseVis ts1
  match ts2 with
  | .ident name :: ts3 =>
    match ts3 with
    | .punct ":" :: ts4 =>
      match takeType 0 ts4 with
      | ([], r) => .error ⟨"type", r⟩
      | (ty, r) => .ok (⟨attrs, vis, some name, ty⟩, r)
    | r => .error ⟨":", r⟩
  | r => .error ⟨"identifier", r⟩

/-- Model of the external collaborator `syn::Field::parse_unnamed`:
attributes, visibility, then the type. -/
def Field.parseUnnamed (ts : List Tok) : Except ParseErr (Field × List Tok) :=
  let (attrs, ts1) := parseOuterAttrs ts
  let (vis, ts2) := parseVis ts1
  match takeType 0 ts2 with
  | ([], r) => .error ⟨"type", r⟩
  | (ty, r) => .ok (⟨attrs, vis, none, ty⟩, r)

/-- Unary operator puncts an expression may start with. -/
def isUnaryOp (s : String) : Bool :=
  s = "-" ∨ s = "!" ∨ s = "*" ∨ s = "&" ∨ s = "&&"

/-- Binary operator puncts that continue an expression. -/
def isBinOp (s : String) : Bool :=
  s = "+" ∨ s = "-" ∨ s = "*" ∨ s = "/" ∨ s = "%" ∨ s = "^" ∨ s = "&" ∨
  s = "|" ∨ s = "&&" ∨ s = "||" ∨ s = "<<" ∨ s = ">>" ∨ s = "==" ∨
  s = "!=" ∨ s = "<" ∨ s = ">" ∨ s = "<=" ∨ s = ">=" ∨ s = "="

/-- Path continuation of an identifier atom: a run of `:: segment`
pairs with identifier segments. -/
def takePath : Nat → List Tok → List Tok × List Tok
  | 0, ts => ([], ts)
  | fuel + 1, .punct "::" :: .ident s :: rest =>
    let (p, r) := takePath fuel rest
    (.punct "::" :: .ident s :: p, r)
  | _ + 1, ts => ([], ts)

/-- One expression operand: an optional run of unary operators followed
by an atom (literal, path, or one delimited group taken as a unit — its
contents belong to the host language's expression grammar, a black box
for this system). -/
def parseOperand : Nat → List Tok → Except ParseErr (List Tok × List Tok)
  | 0, ts => .error ⟨"expression", ts⟩
  | fuel + 1, .punct p :: rest =>
    if isUnaryOp p then
      match parseOperand fuel rest with
      | .ok (e, r) => .ok (.punct p :: e, r)
      | .error err => .error err
    else .error ⟨"expression", .punct p :: rest⟩
  | _ + 1, .lit s :: rest => .ok ([.lit s], rest)
  | fuel + 1, .ident s :: rest =>
    let (p, r) := takePath fuel rest
    .ok (.ident s :: p, r)
  | _ + 1, .group d g :: rest => .ok ([.group d g], rest)
  | _ + 1, [] => .error ⟨"expression", []⟩

/-- Postfix continuations of an operand: field/method access, calls,
indexing and `?`. -/
def parsePostfix : Nat → List Tok → List Tok × List Tok
  | 0, ts => ([], ts)
  | fuel + 1, .punct "." :: .ident m :: .group .paren g :: rest =>
    let (p, r) := parsePostfix fuel rest
    (.punct "." :: .ident m :: .group .paren g :: p, r)
  | fuel + 1, .punct "." :: .ident m :: rest =>
    let (p, r) := parsePostfix fuel rest
    (.punct "." :: .ident m :: p, r)
  | fuel + 1, .punct "." :: .lit n :: rest =>
    let (p, r) := parsePostfix fuel rest
    (.punct "." :: .lit n :: p, r)
  | fuel + 1, .group .paren g :: rest =>
    let (p, r) := parsePostfix fuel rest
    (.group .paren g :: p, r)
  | fuel + 1, .group .bracket g :: rest =>
    let (p, r) := parsePostfix fuel rest
    (.group .bracket g :: p, r)
  | fuel + 1, .punct "?" :: rest =>
    let (p, r) := parsePostfix fuel rest
    (.punct "?" :: p, r)
  | _ + 1, ts => ([], ts)

/-- Fueled core of the expression model: operand, postfix run, then an
optional binary operator followed by another expression. -/
def parseExprAux : Nat → List Tok → Except ParseErr (List Tok × List Tok)
  | 0, ts => .error ⟨"expression", ts⟩
  | fuel + 1, ts =>
    match parseOperand (fuel + 1) ts with
    | .error e => .error e
    | .ok (a, r1) =>
      let (pf, r2) := parsePostfix (fuel + 1) r1
      match r2 with
      | .punct op :: rest =>
        if isBinOp op then
          match parseExprAux fuel rest with
          | .ok (b, r3) => .ok (a ++ pf ++ (.punct op :: b), r3)
          | .error e => .error e
        else .ok (a ++ pf, r2)
      | _ => .ok (a ++ pf, r2)

/-- Model of the external collaborator `syn::Expr::parse`: consume one
expression and return its token stream together with the rest of the
input.  An expression never consumes a token-stream-level comma: a comma
only ever occurs inside a delimited group, which the model takes as a
single unit. -/
def parseExpr (ts : List Tok) : Except ParseErr (List Tok × List Tok) :=
  parseExprAux (ts.length + 1) ts

/-- Embeds `impl Parse for DefaultValue` (src/src/lib.rs:98-104): an `=`
punct followed by an expression; the parsed value is the expression's
token stream (the equal sign is kept by the source but never re-emitted). -/
def DefaultValue.parse (ts : List Tok) : Except ParseErr (List Tok × List Tok) :=
  match ts with
  | .punct "=" :: rest => parseExpr rest
  | rest => .error ⟨"=", rest⟩

/-- Embeds `CustomField` (src/src/lib.rs:93-96): a standard field plus an
optional default-value expression. -/
structure CustomField where
  field : Field
  defaultValue : Option (List Tok)
deriving DecidableEq

/-- Embeds `CustomField::parse_named` (src/src/lib.rs:107-118): parse a
standard named field, then, unless the next token is a comma, demand a
`DefaultValue`. -/
def CustomField.parseNamed (ts : List Tok) : Except ParseErr (CustomField × List Tok) :=
  match Field.parseNamed ts with
  | .error e => .error e
  | .ok (f, r) =>
    if peekComma r then .ok (⟨f, none⟩, r)
    else
      match DefaultValue.parse r with
      | .ok (v, r2) => .ok (⟨f, some v⟩, r2)
      | .error e => .error e

/-- Embeds `CustomField::parse_unnamed` (src/src/lib.rs:120-131): parse a
standard tuple field, then, unless the next token is a comma, demand a
`DefaultValue`. -/
def CustomField.parseUnnamed (ts : List Tok) : Except ParseErr (CustomField × List Tok) :=
  match Field.parseUnnamed ts with
  | .error e => .error e
  | .ok (f, r) =>
    if peekComma r then .ok (⟨f, none⟩, r)
    else
      match DefaultValue.parse r with
      | .ok (v, r2) => .ok (⟨f, some v⟩, r2)
      | .error e => .error e

/-- Model of `Punctuated::parse_terminated` from `syn`, used at
src/src/lib.rs:169 and :203: repeatedly parse an element and a separating
comma until the stream is exhausted; a token other than a comma after an
element is a syntax error.  The fuel argument is a recursion budget; the
callers pass `length + 1`, which suffices because every element parse
consumes at least one token. -/
def parseTerminated (p : List Tok → Except ParseErr (CustomField × List Tok)) :
    Nat → List Tok → Except ParseErr (List CustomField × List Tok)
  | 0, ts => .error ⟨"recursion budget", ts⟩
  | fuel + 1, ts =>
    match ts with
    | [] => .ok ([], [])
    | _ :: _ =>
      match p ts with
      | .error e => .error e
      | .ok (v, r) =>
        match r with
        | [] => .ok ([v], [])
        | .punct "," :: r2 =>
          match parseTerminated p fuel r2 with
          | .ok (vs, r3) => .ok (v :: vs, r3)
          | .error e => .error e
        | r => .error ⟨",", r⟩

/-- Embeds `CustomFieldsNamed` and its `Parse` impl
(src/src/lib.rs:134-137, 164-172): a braced group whose contents are
comma-terminated named fields. -/
def parseCustomFieldsNamed (ts : List Tok) :
    Except ParseErr (List CustomField × List Tok) :=
  match ts with
  | .group .brace g :: rest =>
    match parseTerminated CustomField.parseNamed (g.length + 1) g with
    | .ok (fs, _) => .ok (fs, rest)
    | .error e => .error e
  | rest => .error ⟨"curly braces", rest⟩

/-- Embeds `CustomFieldsUnnamed` and its `Parse` impl
(src/src/lib.rs:174-177, 198-206): a parenthesized group whose contents
are comma-terminated tuple fields. -/
def parseCustomFieldsUnnamed (ts : List Tok) :
    Except ParseErr (List CustomField × List Tok) :=
  match ts with
  | .group .paren g :: rest =>
    match parseTerminated CustomField.parseUnnamed (g.length + 1) g with
    | .ok (fs, _) => .ok (fs, rest)
    | .error e => .error e
  | rest => .error ⟨"parentheses", rest⟩

/-- Embeds `CustomFields` (src/src/lib.rs:208-212): the three field
shapes of a struct. -/
inductive CustomFields where
  | named (fs : List CustomField)
  | unnamed (fs : List CustomField)
  | unit
deriving DecidableEq

/-- Generic parameters and the (separately parsed) where-clause, as in
`syn::Generics`: the token stream between `<` and `>` (empty when the
brackets are absent) and the optional where-clause predicate tokens,
without the `where` keyword itself. -/
structure Generics where
  params : List Tok
  whereClause : Option (List Tok)
deriving DecidableEq

/-- Consume the bracketed parameter list of `syn::Generics::parse` up to
the matching `>` at depth zero. -/
def takeToGt (d : Nat) : List Tok → Except ParseErr (List Tok × List Tok)
  | [] => .error ⟨">", []⟩
  | t :: rest =>
    if d = 0 ∧ t.isPunct ">" then .ok ([], rest)
    else
      let d2 := if t.isPunct "<" then d + 1 else if t.isPunct ">" then d - 1 else d
      match takeToGt d2 rest with
      | .ok (inner, r) => .ok (t :: inner, r)
      | .error e => .error e

/-- Model of the external collaborator `syn::Generics::parse`: an
optional `<` ... `>` parameter list; the where-clause is always left
unset here (the source merges it in afterwards, src/src/lib.rs:353-356). -/
def parseGenerics (ts : List Tok) : Except ParseErr (Generics × List Tok) :=
  match ts with
  | .punct "<" :: rest =>
    match takeToGt 0 rest with
    | .ok (inner, r) => .ok (⟨inner, none⟩, r)
    | .error e => .error e
  | rest => .ok (⟨[], none⟩, rest)

/-- Body of a where-clause: model of the predicate loop of
`syn::WhereClause::parse`, which stops at the end of input, at a braced
group, or at a semicolon. -/
def takeWhereBody : List Tok → List Tok × List Tok
  | [] => ([], [])
  | .group .brace g :: rest => ([], .group .brace g :: rest)
  | .punct ";" :: rest => ([], .punct ";" :: rest)
  | t :: rest =>
    let (w, r) := takeWhereBody rest
    (t :: w, r)

/-- The "peek `where` and parse the clause" step used twice by
`data_struct` (src/src/lib.rs:312-315 and :319-322): when the stream
starts with the `where` keyword, consume it and the clause body. -/
def parseOptWhere (ts : List Tok) : Option (List Tok) × List Tok :=
  match ts with
  | .ident "where" :: rest =>
    let (body, r) := takeWhereBody rest
    (some body, r)
  | _ => (none, ts)

/-- Embeds `data_struct` (src/src/lib.rs:303-338): an optional leading
where-clause; then, only when none was found, a parenthesized field list
with an optional trailing where-clause and a mandatory semicolon; else a
braced field list (no semicolon) or a bare semicolon (unit).  Returns the
where-clause, the fields, whether a semicolon was consumed, and the rest
of the stream. -/
def dataStruct (ts : List Tok) :
    Except ParseErr (Option (List Tok) × CustomFields × Bool × List Tok) :=
  match parseOptWhere ts with
  | (w0, ts1) =>
    match w0, ts1 with
    | none, .group .paren g :: rest =>
      match parseTerminated CustomField.parseUnnamed (g.length + 1) g with
      | .error e => .error e
      | .ok (fs, _) =>
        match parseOptWhere rest with
        | (w1, ts2) =>
          match ts2 with
          | .punct ";" :: r => .ok (w1, .unnamed fs, true, r)
          | r => .error ⟨"semicolon", r⟩
    | w, ts2 =>
      match ts2 with
      | .group .brace g :: rest =>
        match parseTerminated CustomField.parseNamed (g.length + 1) g with
        | .error e => .error e
        | .ok (fs, _) => .ok (w, .named fs, false, rest)
      | .punct ";" :: rest => .ok (w, .unit, true, rest)
      | r => .error ⟨"where clause or field list or semicolon", r⟩

/-- Embeds `Parsed` (src/src/lib.rs:214-222): the whole parsed extended
definition.  `semi` is true exactly when the source's `semi_token` is
`Some`. -/
structure Parsed where
  attrs : List (List Tok)
  vis : Vis
  ident : String
  generics : Generics
  fields : CustomFields
  semi : Bool
deriving DecidableEq

/-- Embeds `impl Parse for Parsed` (src/src/lib.rs:340-361): outer
attributes, visibility, the `struct` keyword, the name, the generics,
then `data_struct`; the where-clause found by `data_struct` is merged
into the generics record. -/
def Parsed.parse (ts : List Tok) : Except ParseErr (Parsed × List Tok) :=
  let (attrs, ts1) := parseOuterAttrs ts
  let (vis, ts2) := parseVis ts1
  match ts2 with
  | .ident "struct" :: .ident name :: ts3 =>
    match parseGenerics ts3 with
    | .error e => .error e
    | .ok (g, ts4) =>
      match dataStruct ts4 with
      | .error e => .error e
      | .ok (w, fields, semi, rest) =>
        .ok (⟨attrs, vis, name, { g with whereClause := w }, fields, semi⟩, rest)
  | .ident "struct" :: r => .error ⟨"identifier", r⟩
  | r => .error ⟨"struct", r⟩

/-- Token stream of the fallback value emitted for a field without a
default: `<Ty as core::default::Default>::default()`
(src/src/lib.rs:155 and :190). -/
def defaultCall (ty : List Tok) : List Tok :=
  [.punct "<"] ++ ty ++
  [.ident "as", .ident "core", .punct "::", .ident "default", .punct "::",
   .ident "Default", .punct ">", .punct "::", .ident "default", .group .paren []]

/-- Value tokens chosen for one field: the explicit default expression
when present, otherwise the fallback call. -/
def CustomField.valueToks (cf : CustomField) : List Tok :=
  match cf.defaultValue with
  | some v => v
  | none => defaultCall cf.field.ty

/-- Tokens of an optional field name as interpolated by `quote!`
(an absent `Option<Ident>` prints nothing). -/
def identToks : Option String → List Tok
  | some n => [.ident n]
  | none => []

/-- Embeds `CustomFieldsNamed::to_formatted_defaults`
(src/src/lib.rs:140-162): one `ident: value` entry per field, in order. -/
def toFormattedDefaultsNamed (fs : List CustomField) : List (List Tok) :=
  fs.map fun cf => identToks cf.field.ident ++ [.punct ":"] ++ cf.valueToks

/-- Embeds `CustomFieldsUnnamed::to_formatted_defaults`
(src/src/lib.rs:180-195): one value entry per field, in order. -/
def toFormattedDefaultsUnnamed (fs : List CustomField) : List (List Tok) :=
  fs.map fun cf => cf.valueToks

/-- The separated repetition `#(#entries),*` of `quote!`: entries joined
by single commas, with no trailing comma. -/
def commaSep (entries : List (List Tok)) : List Tok :=
  List.intercalate [Tok.punct ","] entries

/-- Embeds `syn::Fields`: the stripped field shapes of the emitted plain
struct. -/
inductive Fields where
  | named (fs : List Field)
  | unnamed (fs : List Field)
  | unit
deriving DecidableEq

/-- Embeds `syn::ItemStruct` as produced by the source. -/
structure ItemStruct where
  attrs : List (List Tok)
  vis : Vis
  ident : String
  generics : Generics
  fields : Fields
  semi : Bool
deriving DecidableEq

/-- Embeds `Parsed::into_item_struct` (src/src/lib.rs:225-264): rebuild a
plain `ItemStruct`, keeping every component and dropping exactly the
per-field default values. -/
def Parsed.intoItemStruct (p : Parsed) : ItemStruct :=
  let fields :=
    match p.fields with
    | .named fs => Fields.named (fs.map fun x => x.field)
    | .unnamed fs => Fields.unnamed (fs.map fun x => x.field)
    | .unit => Fields.unit
  { attrs := p.attrs, vis := p.vis, ident := p.ident, generics := p.generics,
    fields := fields, semi := p.semi }

/-- Printing of a visibility, as `quote!`/`syn` re-serialize it. -/
def Vis.toToks : Vis → List Tok
  | .inherited => []
  | .pubAll => [.ident "pub"]
  | .pubIn g => [.ident "pub", .group .paren g]

/-- Printing of one outer attribute. -/
def attrToks (a : List Tok) : List Tok :=
  [.punct "#", .group .bracket a]

/-- Printing of a standard field, as `syn::Field`'s `ToTokens`. -/
def Field.toToks (f : Field) : List Tok :=
  (f.attrs.map attrToks).flatten ++ f.vis.toToks ++
  (match f.ident with
   | some n => [Tok.ident n, Tok.punct ":"]
   | none => []) ++ f.ty

/-- Printing of a generic parameter list, as `syn::Generics`' `ToTokens`:
nothing when there are no parameters. -/
def Generics.paramToks (g : Generics) : List Tok :=
  if g.params = [] then [] else [Tok.punct "<"] ++ g.params ++ [Tok.punct ">"]

/-- Printing of the optional where-clause. -/
def whereToks : Option (List Tok) → List Tok
  | some w => Tok.ident "where" :: w
  | none => []

/-- Split a generic-parameter token stream on depth-zero commas. -/
def splitParams (d : Nat) (acc : List Tok) : List Tok → List (List Tok)
  | [] => [acc.reverse]
  | t :: rest =>
    if d = 0 ∧ t.isPunct "," then acc.reverse :: splitParams 0 [] rest
    else
      let d2 := if t.isPunct "<" then d + 1 else if t.isPunct ">" then d - 1 else d
      splitParams d2 (t :: acc) rest

/-- Name of one generic parameter: the tokens before its depth-zero `:`
(bounds) or `=` (defaults); a const parameter contributes only its
identifier. -/
def paramName : List Tok → List Tok
  | .ident "const" :: .ident n :: _ => [.ident n]
  | p => go 0 p
where
  /-- Take tokens up to a depth-zero `:` or `=`. -/
  go (d : Nat) : List Tok → List Tok
  | [] => []
  | t :: rest =>
    if d = 0 ∧ (t.isPunct ":" ∨ t.isPunct "=") then []
    else
      let d2 := if t.isPunct "<" then d + 1 else if t.isPunct ">" then d - 1 else d
      t :: go d2 rest

/-- Model of `syn::Generics::split_for_impl` (used at
src/src/lib.rs:277): the impl-generics print the parameter list
verbatim, the type-generics print only the parameter names, and the
where-clause is returned for printing at the end of the impl header;
all three are empty for a struct without the corresponding pieces. -/
def Generics.splitForImpl (g : Generics) : List Tok × List Tok × List Tok :=
  (g.paramToks,
   if g.params = [] then []
   else [Tok.punct "<"] ++ commaSep ((splitParams 0 [] g.params).map paramName) ++
     [Tok.punct ">"],
   whereToks g.whereClause)

/-- The construction expression of `Parsed::impl_default`
(src/src/lib.rs:278-294): an initializer list for named fields, a
positional list for tuple fields, the bare `Self` for a unit struct. -/
def Parsed.defaultBody (p : Parsed) : List Tok :=
  match p.fields with
  | .named fs => [.ident "Self", .group .brace (commaSep (toFormattedDefaultsNamed fs))]
  | .unnamed fs => [.ident "Self", .group .paren (commaSep (toFormattedDefaultsUnnamed fs))]
  | .unit => [.ident "Self"]

/-- Embeds `Parsed::impl_default` (src/src/lib.rs:266-300): the
`impl ... core::default::Default for Name ... { fn default() -> Self { body } }`
token stream. -/
def Parsed.implDefault (p : Parsed) : List Tok :=
  let (ig, tg, wc) := p.generics.splitForImpl
  [.ident "impl"] ++ ig ++
  [.ident "core", .punct "::", .ident "default", .punct "::", .ident "Default",
   .ident "for", .ident p.ident] ++ tg ++ wc ++
  [.group .brace
    ([.ident "fn", .ident "default", .group .paren [], .punct "->", .ident "Self",
      .group .brace p.defaultBody])]

/-- Printing of the emitted plain struct, as `syn::ItemStruct`'s
`ToTokens`: attributes, visibility, `struct`, name, generic parameters;
then, by shape: where-clause and braced fields (named), parenthesized
fields then where-clause then `;` (unnamed), where-clause then `;`
(unit). -/
def ItemStruct.toToks (s : ItemStruct) : List Tok :=
  (s.attrs.map attrToks).flatten ++ s.vis.toToks ++
  [Tok.ident "struct", Tok.ident s.ident] ++ s.generics.paramToks ++
  (match s.fields with
   | .named fs =>
     whereToks s.generics.whereClause ++
     [Tok.group .brace (commaSep (fs.map Field.toToks))]
   | .unnamed fs =>
     [Tok.group .paren (commaSep (fs.map Field.toToks))] ++
     whereToks s.generics.whereClause ++ [Tok.punct ";"]
   | .unit => whereToks s.generics.whereClause ++ [Tok.punct ";"])

/-- Embeds the entry point `default` (src/src/lib.rs:364-376): parse the
whole input (`parse_macro_input!` demands that nothing is left over),
then emit the plain struct followed by the default impl wrapped in an
anonymous `const _: () = { ... };` block.  On a parse failure the
invocation fails and no expansion is produced. -/
def defaultExpand (ts : List Tok) : Except ParseErr (List Tok) :=
  match Parsed.parse ts with
  | .error e => .error e
  | .ok (p, []) =>
    .ok (p.intoItemStruct.toToks ++
      [.ident "const", .ident "_", .punct ":", .group .paren [], .punct "=",
       .group .brace p.implDefault, .punct ";"])
  | .ok (_, r) => .error ⟨"end of input", r⟩

instance : DecidableEq (Except ParseErr (List Tok)) := fun a b =>
  match a, b with
  | .ok x, .ok y =>
    match decEq x y with
    | isTrue h => isTrue (by rw [h])
    | isFalse h => isFalse (fun hh => h (by cases hh; rfl))
  | .error x, .error y =>
    match decEq x y with
    | isTrue h => isTrue (by rw [h])
    | isFalse h => isFalse (fun hh => h (by cases hh; rfl))
  | .ok _, .error _ => isFalse (fun h => Except.noConfusion h)
  | .error _, .ok _ => isFalse (fun h => Except.noConfusion h)

instance : DecidableEq (Except ParseErr (Parsed × List Tok)) := fun a b =>
  match a, b with
  | .ok x, .ok y =>
    match decEq x y with
    | isTrue h => isTrue (by rw [h])
    | isFalse h => isFalse (fun hh => h (by cases hh; rfl))
  | .error x, .error y =>
    match decEq x y with
    | isTrue h => isTrue (by rw [h])
    | isFalse h => isFalse (fun hh => h (by cases hh; rfl))
  | .ok _, .error _ => isFalse (fun h => Except.noConfusion h)
  | .error _, .ok _ => isFalse (fun h => Except.noConfusion h)

/-- Example field list for the C1 witness: one field with an explicit
default, one without. -/
def c1fs : List CustomField :=
  [⟨⟨[], .inherited, some "threads", [.ident "usize"]⟩, some [.lit "1"]⟩,
   ⟨⟨[], .inherited, some "name", [.ident "String"]⟩, none⟩]

/-- Input for the C2 witness: `pub struct Settings { threads: usize = 1, }`. -/
def c2ts : List Tok :=
  [.ident "pub", .ident "struct", .ident "Settings",
   .group .brace [.ident "threads", .punct ":", .ident "usize", .punct "=", .lit "1", .punct ","]]

/-- The parsed form of `c2ts`. -/
def c2p : Parsed :=
  ⟨[], .pubAll, "Settings", ⟨[], none⟩,
   .named [⟨⟨[], .inherited, some "threads", [.ident "usize"]⟩, some [.lit "1"]⟩], false⟩

/-- Input for the C4 witness: the tuple form `struct P(u32 = 1,);`. -/
def c4ts : List Tok :=
  [.ident "struct", .ident "P",
   .group .paren [.ident "u32", .punct "=", .lit "1", .punct ","], .punct ";"]

/-- The parsed form of `c4ts`. -/
def c4p : Parsed :=
  ⟨[], .inherited, "P", ⟨[], none⟩,
   .unnamed [⟨⟨[], .inherited, none, [.ident "u32"]⟩, some [.lit "1"]⟩], true⟩

/-- Input for the C5 witness: `struct W<T>(T,) where T: Clone;`. -/
def c5ts : List Tok :=
  [.ident "struct", .ident "W", .punct "<", .ident "T", .punct ">",
   .group .paren [.ident "T", .punct ","],
   .ident "where", .ident "T", .punct ":", .ident "Clone", .punct ";"]

/-- The parsed form of `c5ts`. -/
def c5p : Parsed :=
  ⟨[], .inherited, "W", ⟨[.ident "T"], some [.ident "T", .punct ":", .ident "Clone"]⟩,
   .unnamed [⟨⟨[], .inherited, none, [.ident "T"]⟩, none⟩], true⟩

/-- Input for the C3 analysis: `struct Person { name: String }`, a named
struct whose last field has no default and no trailing comma. -/
def c3bad : List Tok :=
  [.ident "struct", .ident "Person",
   .group .brace [.ident "name", .punct ":", .ident "String"]]

/-- The same definition with a trailing comma after the last field. -/
def c3good : List Tok :=
  [.ident "struct", .ident "Person",
   .group .brace [.ident "name", .punct ":", .ident "String", .punct ","]]

/-- Input for the C6 counterexample: `struct X<T> where T: Clone (T,);`,
a tuple struct with its where-clause written before the parenthesized
field list. -/
def c6ts : List Tok :=
  [.ident "struct", .ident "X", .punct "<", .ident "T", .punct ">",
   .ident "where", .ident "T", .punct ":", .ident "Clone",
   .group .paren [.ident "T", .punct ","], .punct ";"]

/-- A malformed field for C7: `struct X { a u32 }` (missing colon). -/
def c7bad1 : List Tok :=
  [.ident "struct", .ident "X", .group .brace [.ident "a", .ident "u32"]]

/-- A trailing token after a default expression for C7:
`struct X { a: u32 = 1 2, }`. -/
def c7bad2 : List Tok :=
  [.ident "struct", .ident "X",
   .group .brace [.ident "a", .punct ":", .ident "u32", .punct "=",
     .lit "1", .lit "2", .punct ","]]

/-- A missing terminator for C7: `struct X(u32,)` without the `;`. -/
def c7bad3 : List Tok :=
  [.ident "struct", .ident "X", .group .paren [.ident "u32", .punct ","]]

/-- Input for the C8 analysis: the unit struct `struct U;`. -/
def c8ts : List Tok := [.ident "struct", .ident "U", .punct ";"]

/-- The parsed form of `c8ts`. -/
def c8p : Parsed := ⟨[], .inherited, "U", ⟨[], none⟩, .unit, true⟩

/-- Input for the C10 witness: `struct P(u32 = 7,);`. -/
def c10ts : List Tok :=
  [.ident "struct", .ident "P",
   .group .paren [.ident "u32", .punct "=", .lit "7", .punct ","], .punct ";"]

/-- The parsed form of `c10ts`. -/
def c10p : Parsed :=
  ⟨[], .inherited, "P", ⟨[], none⟩,
   .unnamed [⟨⟨[], .inherited, none, [.ident "u32"]⟩, some [.lit "7"]⟩], true⟩

/-! Theorems about the embedded program. -/

/-- C1: for every field of a parsed definition carrying an explicit
default `= expr`, the generated constructor emits exactly `expr` as that
field's value, and for every field without one it emits the call to the
field type's generic default operation; this holds position by position
for both the named and the unnamed emission. -/
theorem default_precedence (fs : List CustomField) (i : Nat) (cf : CustomField)
    (h : fs[i]? = some cf) :
    (toFormattedDefaultsNamed fs)[i]? =
      some (identToks cf.field.ident ++ [Tok.punct ":"] ++ cf.valueToks) ∧
    (toFormattedDefaultsUnnamed fs)[i]? = some cf.valueToks ∧
    (∀ e, cf.defaultValue = some e → cf.valueToks = e) ∧
    (cf.defaultValue = none → cf.valueToks = defaultCall cf.field.ty) := by
  refine ⟨?_, ?_, ?_, ?_⟩
  · simp [toFormattedDefaultsNamed, List.getElem?_map, h]
  · simp [toFormattedDefaultsUnnamed, List.getElem?_map, h]
  · intro e he
    simp [CustomField.valueToks, he]
  · intro he
    simp [CustomField.valueToks, he]

/-- Witness for C1 at a concrete field list and position. -/
theorem default_precedence_witness :
    c1fs[0]? = some ⟨⟨[], .inherited, some "threads", [.ident "usize"]⟩, some [.lit "1"]⟩ ∧
    ((toFormattedDefaultsNamed c1fs)[0]? =
      some (identToks (some "threads") ++ [Tok.punct ":"] ++
        CustomField.valueToks ⟨⟨[], .inherited, some "threads", [.ident "usize"]⟩, some [.lit "1"]⟩) ∧
     (toFormattedDefaultsUnnamed c1fs)[0]? =
      some (CustomField.valueToks ⟨⟨[], .inherited, some "threads", [.ident "usize"]⟩, some [.lit "1"]⟩) ∧
     (∀ e, (some [Tok.lit "1"] : Option (List Tok)) = some e →
        CustomField.valueToks ⟨⟨[], .inherited, some "threads", [.ident "usize"]⟩, some [.lit "1"]⟩ = e) ∧
     ((some [Tok.lit "1"] : Option (List Tok)) = none →
        CustomField.valueToks ⟨⟨[], .inherited, some "threads", [.ident "usize"]⟩, some [.lit "1"]⟩ =
          defaultCall [.ident "usize"])) :=
  ⟨rfl, default_precedence c1fs 0 _ rfl⟩

/-- C2: for every extended definition accepted by the parser, the
emitted plain struct keeps the attributes, visibility, name, merged
generics and terminator unchanged, and keeps the fields in order in the
same shape with exactly the default annotation dropped from each. -/
theorem roundtrip_shape (ts : List Tok) (p : Parsed) (rest : List Tok)
    (_h : Parsed.parse ts = .ok (p, rest)) :
    p.intoItemStruct.attrs = p.attrs ∧
    p.intoItemStruct.vis = p.vis ∧
    p.intoItemStruct.ident = p.ident ∧
    p.intoItemStruct.generics = p.generics ∧
    p.intoItemStruct.semi = p.semi ∧
    p.intoItemStruct.fields =
      (match p.fields with
       | .named fs => Fields.named (fs.map fun x => x.field)
       | .unnamed fs => Fields.unnamed (fs.map fun x => x.field)
       | .unit => Fields.unit) :=
  ⟨rfl, rfl, rfl, rfl, rfl, rfl⟩

/-- Witness for C2 at a concrete accepted definition. -/
theorem roundtrip_shape_witness :
    Parsed.parse c2ts = .ok (c2p, []) ∧
    (c2p.intoItemStruct.attrs = c2p.attrs ∧
     c2p.intoItemStruct.vis = c2p.vis ∧
     c2p.intoItemStruct.ident = c2p.ident ∧
     c2p.intoItemStruct.generics = c2p.generics ∧
     c2p.intoItemStruct.semi = c2p.semi ∧
     c2p.intoItemStruct.fields =
       (match c2p.fields with
        | .named fs => Fields.named (fs.map fun x => x.field)
        | .unnamed fs => Fields.unnamed (fs.map fun x => x.field)
        | .unit => Fields.unit)) :=
  ⟨by rfl, roundtrip_shape c2ts c2p [] (by rfl)⟩

/-- C4: for every successfully parsed definition, the constructor body
matches the field shape — a braced initializer list of the named
entries, a parenthesized positional list of the unnamed entries, or the
bare `Self` — and the impl wraps exactly that body in
`fn default() -> Self { ... }`. -/
theorem shape_coverage (ts : List Tok) (p : Parsed) (rest : List Tok)
    (_h : Parsed.parse ts = .ok (p, rest)) :
    p.defaultBody =
      (match p.fields with
       | .named fs =>
         [Tok.ident "Self", Tok.group .brace (commaSep (toFormattedDefaultsNamed fs))]
       | .unnamed fs =>
         [Tok.ident "Self", Tok.group .paren (commaSep (toFormattedDefaultsUnnamed fs))]
       | .unit => [Tok.ident "Self"]) ∧
    p.implDefault =
      [Tok.ident "impl"] ++ (p.generics.splitForImpl).1 ++
      [Tok.ident "core", Tok.punct "::", Tok.ident "default", Tok.punct "::",
       Tok.ident "Default", Tok.ident "for", Tok.ident p.ident] ++
      (p.generics.splitForImpl).2.1 ++ (p.generics.splitForImpl).2.2 ++
      [Tok.group .brace
        [Tok.ident "fn", Tok.ident "default", Tok.group .paren [], Tok.punct "->",
         Tok.ident "Self", Tok.group .brace p.defaultBody]] :=
  ⟨rfl, rfl⟩

/-- Witness for C4 at a concrete accepted definition. -/
theorem shape_coverage_witness :
    Parsed.parse c4ts = .ok (c4p, []) ∧
    (c4p.defaultBody =
      (match c4p.fields with
       | .named fs =>
         [Tok.ident "Self", Tok.group .brace (commaSep (toFormattedDefaultsNamed fs))]
       | .unnamed fs =>
         [Tok.ident "Self", Tok.group .paren (commaSep (toFormattedDefaultsUnnamed fs))]
       | .unit => [Tok.ident "Self"]) ∧
     c4p.implDefault =
      [Tok.ident "impl"] ++ (c4p.generics.splitForImpl).1 ++
      [Tok.ident "core", Tok.punct "::", Tok.ident "default", Tok.punct "::",
       Tok.ident "Default", Tok.ident "for", Tok.ident c4p.ident] ++
      (c4p.generics.splitForImpl).2.1 ++ (c4p.generics.splitForImpl).2.2 ++
      [Tok.group .brace
        [Tok.ident "fn", Tok.ident "default", Tok.group .paren [], Tok.punct "->",
         Tok.ident "Self", Tok.group .brace c4p.defaultBody]]) :=
  ⟨by rfl, shape_coverage c4ts c4p [] (by rfl)⟩

/-- C5: for every successfully parsed definition, the emitted impl block
is parameterized exactly like the struct: the impl header carries the
struct's generic parameter tokens verbatim and its where-clause verbatim,
and the implementing type reference carries the parameter names as its
type arguments; all three pieces are empty when the struct has no
generics. -/
theorem generics_propagation (ts : List Tok) (p : Parsed) (rest : List Tok)
    (_h : Parsed.parse ts = .ok (p, rest)) :
    p.implDefault =
      [Tok.ident "impl"] ++
      (if p.generics.params = [] then []
       else [Tok.punct "<"] ++ p.generics.params ++ [Tok.punct ">"]) ++
      [Tok.ident "core", Tok.punct "::", Tok.ident "default", Tok.punct "::",
       Tok.ident "Default", Tok.ident "for", Tok.ident p.ident] ++
      (if p.generics.params = [] then []
       else [Tok.punct "<"] ++
         commaSep ((splitParams 0 [] p.generics.params).map paramName) ++
         [Tok.punct ">"]) ++
      (match p.generics.whereClause with
       | some w => Tok.ident "where" :: w
       | none => []) ++
      [Tok.group .brace
        [Tok.ident "fn", Tok.ident "default", Tok.group .paren [], Tok.punct "->",
         Tok.ident "Self", Tok.group .brace p.defaultBody]] := by
  show p.implDefault =
      [Tok.ident "impl"] ++ p.generics.paramToks ++
      [Tok.ident "core", Tok.punct "::", Tok.ident "default", Tok.punct "::",
       Tok.ident "Default", Tok.ident "for", Tok.ident p.ident] ++
      (p.generics.splitForImpl).2.1 ++ whereToks p.generics.whereClause ++
      [Tok.group .brace
        [Tok.ident "fn", Tok.ident "default", Tok.group .paren [], Tok.punct "->",
         Tok.ident "Self", Tok.group .brace p.defaultBody]]
  rfl

/-- Witness for C5 at a concrete generic definition with a where-clause. -/
theorem generics_propagation_witness :
    Parsed.parse c5ts = .ok (c5p, []) ∧
    c5p.implDefault =
      [Tok.ident "impl"] ++
      (if c5p.generics.params = [] then []
       else [Tok.punct "<"] ++ c5p.generics.params ++ [Tok.punct ">"]) ++
      [Tok.ident "core", Tok.punct "::", Tok.ident "default", Tok.punct "::",
       Tok.ident "Default", Tok.ident "for", Tok.ident c5p.ident] ++
      (if c5p.generics.params = [] then []
       else [Tok.punct "<"] ++
         commaSep ((splitParams 0 [] c5p.generics.params).map paramName) ++
         [Tok.punct ">"]) ++
      (match c5p.generics.whereClause with
       | some w => Tok.ident "where" :: w
       | none => []) ++
      [Tok.group .brace
        [Tok.ident "fn", Tok.ident "default", Tok.group .paren [], Tok.punct "->",
         Tok.ident "Self", Tok.group .brace c5p.defaultBody]] :=
  ⟨by rfl, generics_propagation c5ts c5p [] (by rfl)⟩

/-- C9: a parenthesized or bracketed literal used as a default expression
is consumed as one unit and the expression parse stops at the following
field-separating comma, so the next field is still parsed separately;
shown at the expression level and at the field level for an arbitrary
group body and an arbitrary continuation of the field list. -/
theorem tuple_literal_default_boundary (g rest : List Tok) :
    parseExpr (.group .paren g :: .punct "," :: rest) =
      .ok ([.group .paren g], .punct "," :: rest) ∧
    parseExpr (.group .bracket g :: .punct "," :: rest) =
      .ok ([.group .bracket g], .punct "," :: rest) ∧
    CustomField.parseNamed
      ([.ident "v", .punct ":", .ident "T", .punct "=", .group .paren g, .punct ","] ++ rest) =
      .ok (⟨⟨[], .inherited, some "v", [.ident "T"]⟩, some [.group .paren g]⟩,
        .punct "," :: rest) :=
  ⟨rfl, rfl, rfl⟩

/-- C3: evaluation of the parser at the input the claim promises to
accept.  After a named field is consumed, the source checks only for a
comma — not for the end of the field list — so a last field with no
default and no trailing comma makes the parser demand `= expr` and fail
at the end of the input, while the same definition with a trailing comma
is accepted. -/
theorem last_field_requires_comma :
    CustomField.parseNamed [.ident "name", .punct ":", .ident "String"] =
      .error ⟨"=", []⟩ ∧
    Parsed.parse c3bad = .error ⟨"=", []⟩ ∧
    Parsed.parse c3good =
      .ok (⟨[], .inherited, "Person", ⟨[], none⟩,
        .named [⟨⟨[], .inherited, some "name", [.ident "String"]⟩, none⟩], false⟩, []) :=
  ⟨rfl, rfl, rfl⟩

/-- C8 counterexample: on the unit struct `struct U;` the expansion is
not the bare concatenation of the plain struct and the impl block — the
impl is wrapped in an anonymous `const _: () = { ... };` item. -/
theorem output_not_bare_concatenation :
    defaultExpand c8ts =
      .ok (c8p.intoItemStruct.toToks ++
        [.ident "const", .ident "_", .punct ":", .group .paren [], .punct "=",
         .group .brace c8p.implDefault, .punct ";"]) ∧
    defaultExpand c8ts ≠ .ok (c8p.intoItemStruct.toToks ++ c8p.implDefault) :=
  ⟨rfl, by decide⟩

/-- C8 (amended): for every successfully parsed definition the expansion
is exactly the plain struct definition followed by the generated impl
wrapped in an anonymous `const _: () = { ... };` block, and nothing
else. -/
theorem output_assembly (ts : List Tok) (p : Parsed)
    (h : Parsed.parse ts = .ok (p, [])) :
    defaultExpand ts =
      .ok (p.intoItemStruct.toToks ++
        [.ident "const", .ident "_", .punct ":", .group .paren [], .punct "=",
         .group .brace p.implDefault, .punct ";"]) := by
  unfold defaultExpand
  rw [h]

/-- Witness for the amended C8 at a concrete input. -/
theorem output_assembly_witness :
    Parsed.parse c8ts = .ok (c8p, []) ∧
    defaultExpand c8ts =
      .ok (c8p.intoItemStruct.toToks ++
        [.ident "const", .ident "_", .punct ":", .group .paren [], .punct "=",
         .group .brace c8p.implDefault, .punct ";"]) :=
  ⟨by rfl, output_assembly c8ts c8p (by rfl)⟩

/-- Reduction of `parseOptWhere` at the `where` keyword. -/
theorem parseOptWhereKeyword (rest : List Tok) :
    parseOptWhere (.ident "where" :: rest) =
      (some (takeWhereBody rest).1, (takeWhereBody rest).2) := by
  rcases h : takeWhereBody rest with ⟨b, r⟩
  simp [parseOptWhere, h]

/-- Reduction of `parseOptWhere` at a group token. -/
theorem parseOptWhereGroup (d : Delim) (g ts : List Tok) :
    parseOptWhere (.group d g :: ts) = (none, .group d g :: ts) := rfl

/-- C6 counterexample: on `struct X<T> where T: Clone (T,);` — a
where-clause written before the parenthesized field list — the parser
does not produce the unnamed form at all: the where-clause parse
swallows the parenthesized group and the definition comes out as a unit
struct, not as the tuple struct with one field that the claim
describes. -/
theorem where_before_parens_counterexample :
    Parsed.parse c6ts =
      .ok (⟨[], .inherited, "X",
        ⟨[.ident "T"],
         some [.ident "T", .punct ":", .ident "Clone",
           .group .paren [.ident "T", .punct ","]]⟩, .unit, true⟩, []) ∧
    Parsed.parse c6ts ≠
      .ok (⟨[], .inherited, "X",
        ⟨[.ident "T"], some [.ident "T", .punct ":", .ident "Clone"]⟩,
        .unnamed [⟨⟨[], .inherited, none, [.ident "T"]⟩, none⟩], true⟩, []) :=
  ⟨rfl, by decide⟩

/-- C6 (amended): for the unnamed form only a where-clause after the
parenthesized field list is accepted; it is merged into the single
generics record of the result.  When a where-clause precedes, the
unnamed branch is never taken: a successful parse starting at a
where-clause never yields the unnamed shape. -/
theorem where_clause_positions (g rest wb r : List Tok) (fs : List CustomField)
    (hg : parseTerminated CustomField.parseUnnamed (g.length + 1) g = .ok (fs, []))
    (hw : takeWhereBody rest = (wb, .punct ";" :: r)) :
    dataStruct (.group .paren g :: .ident "where" :: rest) =
      .ok (some wb, .unnamed fs, true, r) ∧
    (∀ ts0 w fields semi r2,
       dataStruct (Tok.ident "where" :: ts0) = .ok (w, fields, semi, r2) →
       ∀ xs, fields ≠ CustomFields.unnamed xs) := by
  constructor
  · simp only [dataStruct, parseOptWhereGroup, hg, parseOptWhereKeyword, hw]
  · intro ts0 w fields semi r2 h xs
    simp only [dataStruct, parseOptWhereKeyword] at h
    rcases hW : takeWhereBody ts0 with ⟨wb0, tr⟩
    rw [hW] at h
    dsimp only at h
    split at h
    · split at h
      · exact absurd h (by simp)
      · rcases h with ⟨⟩
        simp
    · rcases h with ⟨⟩
      simp
    · exact absurd h (by simp)

/-- Witness for the amended C6 at a concrete tuple struct
`(u32,) where u32: Copy ;`. -/
theorem where_clause_positions_witness :
    parseTerminated CustomField.parseUnnamed
      ([Tok.ident "u32", Tok.punct ","].length + 1) [Tok.ident "u32", Tok.punct ","] =
      .ok ([⟨⟨[], .inherited, none, [.ident "u32"]⟩, none⟩], []) ∧
    takeWhereBody [.ident "u32", .punct ":", .ident "Copy", .punct ";"] =
      ([.ident "u32", .punct ":", .ident "Copy"], [.punct ";"]) ∧
    (dataStruct (.group .paren [.ident "u32", .punct ","] ::
        .ident "where" :: [.ident "u32", .punct ":", .ident "Copy", .punct ";"]) =
      .ok (some [.ident "u32", .punct ":", .ident "Copy"],
        .unnamed [⟨⟨[], .inherited, none, [.ident "u32"]⟩, none⟩], true, []) ∧
     (∀ ts0 w fields semi r2,
        dataStruct (Tok.ident "where" :: ts0) = .ok (w, fields, semi, r2) →
        ∀ xs, fields ≠ CustomFields.unnamed xs)) :=
  ⟨rfl, rfl,
   where_clause_positions [.ident "u32", .punct ","]
     [.ident "u32", .punct ":", .ident "Copy", .punct ";"]
     [.ident "u32", .punct ":", .ident "Copy"] []
     [⟨⟨[], .inherited, none, [.ident "u32"]⟩, none⟩] rfl rfl⟩

/-- C7: a failing element parse aborts the whole field-list parse with
the inner error unchanged (no recovery); a token other than a comma left
after a parsed element (such as a stray token after a default
expression) aborts with an error pinpointing that token; and the three
malformed inputs of the claim — a bad field, a trailing token after an
expression, and a missing tuple-struct terminator — each make the whole
invocation fail with an error naming the expectation and holding the
offending remainder of the stream. -/
theorem failure_reporting :
    (∀ (fuel : Nat) (ts : List Tok) (e : ParseErr)
       (p : List Tok → Except ParseErr (CustomField × List Tok)),
       ts ≠ [] → p ts = .error e → parseTerminated p (fuel + 1) ts = .error e) ∧
    (∀ (fuel : Nat) (ts : List Tok) (v : CustomField) (t : Tok) (r : List Tok)
       (p : List Tok → Except ParseErr (CustomField × List Tok)),
       ts ≠ [] → p ts = .ok (v, t :: r) → t.isPunct "," = false →
       parseTerminated p (fuel + 1) ts = .error ⟨",", t :: r⟩) ∧
    defaultExpand c7bad1 = .error ⟨":", [.ident "u32"]⟩ ∧
    defaultExpand c7bad2 = .error ⟨",", [.lit "2", .punct ","]⟩ ∧
    defaultExpand c7bad3 = .error ⟨"semicolon", []⟩ := by
  refine ⟨?_, ?_, rfl, rfl, rfl⟩
  · intro fuel ts e p hne he
    cases ts with
    | nil => exact absurd rfl hne
    | cons a as => simp [parseTerminated, he]
  · intro fuel ts v t r p hne hp hc
    cases ts with
    | nil => exact absurd rfl hne
    | cons a as =>
      simp only [parseTerminated, hp]
      cases t with
      | punct s =>
        have hs : s ≠ "," := by
          simpa [Tok.isPunct] using hc
        simp [hs]
      | ident s => rfl
      | lit s => rfl
      | group d g => rfl

/-- Witness for C7: the first two parts applied at a malformed field and
at a stray token after a parsed field. -/
theorem failure_reporting_witness :
    ([Tok.ident "a"] ≠ ([] : List Tok)) ∧
    CustomField.parseNamed [Tok.ident "a"] = .error ⟨":", []⟩ ∧
    parseTerminated CustomField.parseNamed (0 + 1) [Tok.ident "a"] = .error ⟨":", []⟩ ∧
    CustomField.parseNamed
      [Tok.ident "a", Tok.punct ":", Tok.ident "u32", Tok.punct "=", Tok.lit "1",
       Tok.lit "2"] =
      .ok (⟨⟨[], .inherited, some "a", [.ident "u32"]⟩, some [.lit "1"]⟩, [.lit "2"]) ∧
    parseTerminated CustomField.parseNamed (0 + 1)
      [Tok.ident "a", Tok.punct ":", Tok.ident "u32", Tok.punct "=", Tok.lit "1",
       Tok.lit "2"] =
      .error ⟨",", [.lit "2"]⟩ :=
  ⟨by simp, rfl,
   failure_reporting.1 0 [Tok.ident "a"] ⟨":", []⟩ CustomField.parseNamed (by simp) rfl,
   rfl,
   failure_reporting.2.1 0
     [Tok.ident "a", Tok.punct ":", Tok.ident "u32", Tok.punct "=", Tok.lit "1",
      Tok.lit "2"]
     ⟨⟨[], .inherited, some "a", [.ident "u32"]⟩, some [.lit "1"]⟩
     (Tok.lit "2") [] CustomField.parseNamed (by simp) rfl rfl⟩

/-- Helper: in every successful result of `dataStruct`, the semicolon
flag is false for the named shape and true for the unnamed and unit
shapes. -/
theorem dataStruct_semi (ts : List Tok) (w : Option (List Tok))
    (fields : CustomFields) (semi : Bool) (r : List Tok)
    (h : dataStruct ts = .ok (w, fields, semi, r)) :
    (∀ fs, fields = .named fs → semi = false) ∧
    (∀ fs, fields = .unnamed fs → semi = true) ∧
    (fields = .unit → semi = true) := by
  unfold dataStruct at h
  rcases hP : parseOptWhere ts with ⟨w0, ts1⟩
  rw [hP] at h
  dsimp only at h
  split at h
  · split at h
    · exact absurd h (by simp)
    · split at h
      · rcases h with ⟨⟩
        refine ⟨?_, ?_, ?_⟩ <;> simp
      · exact absurd h (by simp)
  · split at h
    · split at h
      · exact absurd h (by simp)
      · rcases h with ⟨⟩
        refine ⟨?_, ?_, ?_⟩ <;> simp
    · rcases h with ⟨⟩
      refine ⟨?_, ?_, ?_⟩ <;> simp
    · exact absurd h (by simp)

/-- Helper: every successful run of the whole parser goes through
`dataStruct`, which supplies exactly the fields, the semicolon flag and
the leftover stream of the result. -/
theorem parse_fields_semi (ts : List Tok) (p : Parsed) (rest : List Tok)
    (h : Parsed.parse ts = .ok (p, rest)) :
    ∃ ts4 w, dataStruct ts4 = .ok (w, p.fields, p.semi, rest) := by
  unfold Parsed.parse at h
  rcases hA : parseOuterAttrs ts with ⟨attrs, ts1⟩
  rw [hA] at h
  dsimp only at h
  rcases hV : parseVis ts1 with ⟨vis, ts2⟩
  rw [hV] at h
  dsimp only at h
  split at h
  · split at h
    · exact absurd h (by simp)
    · split at h
      · exact absurd h (by simp)
      · rcases h with ⟨⟩
        rename_i hdata
        exact ⟨_, _, hdata⟩
  · exact absurd h (by simp)
  · exact absurd h (by simp)

/-- C10: for every successfully parsed definition the terminator is
recorded exactly when the field shape is unnamed or unit and never for
the named shape, and the emitted plain struct carries the identical
terminator marker. -/
theorem terminator_invariant (ts : List Tok) (p : Parsed) (rest : List Tok)
    (h : Parsed.parse ts = .ok (p, rest)) :
    (∀ fs, p.fields = .named fs → p.semi = false) ∧
    (∀ fs, p.fields = .unnamed fs → p.semi = true) ∧
    (p.fields = .unit → p.semi = true) ∧
    p.intoItemStruct.semi = p.semi := by
  obtain ⟨ts4, w, hd⟩ := parse_fields_semi ts p rest h
  have hs := dataStruct_semi ts4 w p.fields p.semi rest hd
  exact ⟨hs.1, hs.2.1, hs.2.2, rfl⟩

/-- Witness for C10 at the concrete tuple struct `struct P(u32 = 7,);`. -/
theorem terminator_invariant_witness :
    Parsed.parse c10ts = .ok (c10p, []) ∧
    ((∀ fs, c10p.fields = .named fs → c10p.semi = false) ∧
     (∀ fs, c10p.fields = .unnamed fs → c10p.semi = true) ∧
     (c10p.fields = .unit → c10p.semi = true) ∧
     c10p.intoItemStruct.semi = c10p.semi) :=
  ⟨by rfl, terminator_invariant c10ts c10p [] (by rfl)⟩

end ShortDefault
